import Mathlib

/-!
Shallow embedding of the Library Management System (book.py, member.py,
library.py).  Python objects are modelled as references (`Obj`) into total
heaps (`Nat → Book`, `Nat → Member`); object identity is reference equality.
Python's duck typing (`hasattr` checks) is modelled by case analysis on the
`Obj` constructor: a `Book` object has the attributes of book.py, a `Member`
object those of member.py, and `junk` stands for any object with none of
them.  `datetime.now()` is modelled by a logical clock that ticks exactly
when the source calls `datetime.now()`.
-/

/-- A Python object reference: a Book object, a Member object, or any other
object (one lacking `book_id`/`member_id` and the Book/Member methods). -/
inductive Obj where
  | bookObj (r : Nat)
  | memberObj (r : Nat)
  | junk (n : Nat)
deriving DecidableEq, Repr

/-- Mirrors the fields set by `Book.__init__` (book.py lines 17-26). -/
structure Book where
  book_id : Int
  title : String
  author : String
  genre : String
  is_available : Bool
  borrowed_at : Option Nat
  borrowed_by : Option Nat
  returned_at : Option Nat
  returned_by : Option Nat
deriving DecidableEq, Repr

/-- A freshly constructed Book: `is_available = True`, all four provenance
fields `None` (book.py lines 21-26). -/
def Book.fresh (id : Int) (title author genre : String) : Book :=
  ⟨id, title, author, genre, true, none, none, none, none⟩

/-- `Book.borrow` (book.py lines 34-40): if available, flips the flag,
records the timestamp and the borrowing member, and returns True; otherwise
returns False with no state change. -/
def Book.borrow (b : Book) (member : Option Nat) (now : Nat) : Book × Bool :=
  if b.is_available then
    ({ b with is_available := false, borrowed_at := some now, borrowed_by := member }, true)
  else (b, false)

/-- `Book.return_book` (book.py lines 44-47): unconditionally marks the book
available and records the return timestamp and member. -/
def Book.return_book (b : Book) (member : Option Nat) (now : Nat) : Book :=
  { b with is_available := true, returned_at := some now, returned_by := member }

/-- `Book.is_available_to_borrow` (book.py lines 50-51). -/
def Book.is_available_to_borrow (b : Book) : Bool :=
  b.is_available

/-- Mirrors the fields set by `Member.__init__` (member.py lines 22-26);
`borrowed_books` holds references to Book objects. -/
structure Member where
  member_id : Int
  name : String
  age : Int
  contact_info : String
  borrowed_books : List Nat
deriving DecidableEq, Repr

/-- `Member.MAX_BORROW_LIMIT` (member.py line 9). -/
def Member.MAX_BORROW_LIMIT : Nat := 2

/-- The dictionary returned by `Book.get_borrow_details` (book.py 58-62). -/
structure BorrowDetails where
  borrowed_at : Nat
  borrowed_by : String
  borrowed_by_id : Option Int
deriving DecidableEq, Repr

/-- The dictionary returned by `Book.get_return_details` (book.py 70-74). -/
structure ReturnDetails where
  returned_at : Nat
  returned_by : String
  returned_by_id : Option Int
deriving DecidableEq, Repr

/-- `Book.get_borrow_details` (book.py lines 55-63): some details exactly
when the book is unavailable and both borrow provenance fields are set.  The
member heap is needed to dereference the stored member for name and id. -/
def Book.get_borrow_details (b : Book) (memberHeap : Nat → Member) : Option BorrowDetails :=
  match b.is_available, b.borrowed_at, b.borrowed_by with
  | false, some t, some m =>
      some ⟨t, (memberHeap m).name, some (memberHeap m).member_id⟩
  | _, _, _ => none

/-- `Book.get_return_details` (book.py lines 67-75): some details exactly
when the book is available and both return provenance fields are set. -/
def Book.get_return_details (b : Book) (memberHeap : Nat → Member) : Option ReturnDetails :=
  match b.is_available, b.returned_at, b.returned_by with
  | true, some t, some m =>
      some ⟨t, (memberHeap m).name, some (memberHeap m).member_id⟩
  | _, _, _ => none

/-- The two collections owned by a `Library` (library.py lines 9-11).  They
hold arbitrary object references: `add_books`/`add_members` insert without
validation. -/
structure Library where
  books : List Obj
  members : List Obj
deriving DecidableEq, Repr

/-- Whole-program state: the object heaps, the (single) library object, and
the logical clock standing for `datetime.now()`. -/
structure LMS where
  bookHeap : Nat → Book
  memberHeap : Nat → Member
  lib : Library
  clock : Nat

/-- Point update of a heap. -/
def updateFn {α : Type} (f : Nat → α) (r : Nat) (v : α) : Nat → α :=
  fun r2 => if r2 = r then v else f r2

/-- Python `hasattr(x, 'book_id')`: true exactly for Book objects. -/
def Obj.hasBookId : Obj → Bool
  | .bookObj _ => true
  | _ => false

/-- Python `hasattr(x, 'member_id')`: true exactly for Member objects. -/
def Obj.hasMemberId : Obj → Bool
  | .memberObj _ => true
  | _ => false

/-- `Member.borrow_book` (member.py lines 34-50).  A non-Book argument fails
the `hasattr(book, 'is_available_to_borrow')` check; the AttributeError is
caught and logged, so the state is unchanged.  Otherwise, under the borrow
limit and with the book available, the book is appended to `borrowed_books`
and `book.borrow(member=self)` records provenance. -/
def Member.borrow_book (s : LMS) (mref : Nat) (book : Obj) : LMS :=
  match book with
  | Obj.bookObj bref =>
      if (s.memberHeap mref).borrowed_books.length < Member.MAX_BORROW_LIMIT then
        if (s.bookHeap bref).is_available_to_borrow then
          { s with
            memberHeap := updateFn s.memberHeap mref
              { s.memberHeap mref with
                borrowed_books := (s.memberHeap mref).borrowed_books ++ [bref] },
            bookHeap := updateFn s.bookHeap bref
              ((s.bookHeap bref).borrow (some mref) s.clock).1,
            clock := s.clock + 1 }
        else s
      else s
  | _ => s

/-- `Member.return_book` (member.py lines 54-67).  A junk argument fails the
`hasattr(book, 'return_book')` check (caught, no change); a Member argument
passes it (Member also has `return_book`) but is never an element of
`borrowed_books`, which only ever receives Book references, so the
membership test fails and nothing changes.  A held Book is removed from
`borrowed_books` and `book.return_book(member=self)` records provenance. -/
def Member.return_book (s : LMS) (mref : Nat) (book : Obj) : LMS :=
  match book with
  | Obj.bookObj bref =>
      if bref ∈ (s.memberHeap mref).borrowed_books then
        { s with
          memberHeap := updateFn s.memberHeap mref
            { s.memberHeap mref with
              borrowed_books := (s.memberHeap mref).borrowed_books.erase bref },
          bookHeap := updateFn s.bookHeap bref
            ((s.bookHeap bref).return_book (some mref) s.clock),
          clock := s.clock + 1 }
      else s
  | _ => s

/-- `Library.add_book` (library.py lines 14-23): objects without a `book_id`
attribute raise a TypeError that is caught and logged; objects with one are
appended. -/
def Library.add_book (lib : Library) (book : Obj) : Library :=
  if book.hasBookId then { lib with books := lib.books ++ [book] } else lib

/-- `Library.add_books` (library.py lines 26-27): `self.books.extend(books)`
with no validation. -/
def Library.add_books (lib : Library) (books : List Obj) : Library :=
  { lib with books := lib.books ++ books }

/-- `Library.remove_book` (library.py lines 30-32). -/
def Library.remove_book (lib : Library) (book : Obj) : Library :=
  if book ∈ lib.books then { lib with books := lib.books.erase book } else lib

/-- `Library.add_member` (library.py lines 35-44): objects without a
`member_id` attribute are logged and dropped; others are appended. -/
def Library.add_member (lib : Library) (member : Obj) : Library :=
  if member.hasMemberId then { lib with members := lib.members ++ [member] } else lib

/-- `Library.add_members` (library.py lines 47-48): extend, no validation. -/
def Library.add_members (lib : Library) (members : List Obj) : Library :=
  { lib with members := lib.members ++ members }

/-- `Library.remove_member` (library.py lines 51-53). -/
def Library.remove_member (lib : Library) (member : Obj) : Library :=
  if member ∈ lib.members then { lib with members := lib.members.erase member } else lib

/-- `Library.issue_book` (library.py lines 68-79).  The `hasattr` guards
require a Book and a Member object (TypeError caught otherwise); then the
book must be in `self.books` and available, in which case the call delegates
to `member.borrow_book(book)`.  Note: no check that the member is in
`self.members`. -/
def Library.issue_book (s : LMS) (book : Obj) (member : Obj) : LMS :=
  match book, member with
  | Obj.bookObj bref, Obj.memberObj mref =>
      if Obj.bookObj bref ∈ s.lib.books ∧ (s.bookHeap bref).is_available = true then
        Member.borrow_book s mref (Obj.bookObj bref)
      else s
  | _, _ => s

/-- `Library.return_book` (library.py lines 82-93).  The `hasattr` guards
require a Member object; the book must be in `member.borrowed_books` (which
only ever holds Book references), in which case the call delegates to
`member.return_book(book)`; otherwise a log line only. -/
def Library.return_book (s : LMS) (book : Obj) (member : Obj) : LMS :=
  match member with
  | Obj.memberObj mref =>
      match book with
      | Obj.bookObj bref =>
          if bref ∈ (s.memberHeap mref).borrowed_books then
            Member.return_book s mref (Obj.bookObj bref)
          else s
      | _ => s
  | _ => s

/-- Python `str.lower()`, per character, as a character list. -/
def lowerChars (str : String) : List Char :=
  str.toList.map Char.toLower

/-- The per-book test of `Library.search_books` (library.py line 118):
`keyword in book.title.lower() or keyword in book.author.lower()`, where
`kw` is the already lower-cased keyword and Python's `in` on strings is
substring (infix) containment. -/
def matchesKeyword (kw : List Char) (b : Book) : Bool :=
  decide (kw <:+: lowerChars b.title) || decide (kw <:+: lowerChars b.author)

/-- The `for book in self.books` loop of `search_books` (library.py lines
115-120).  A non-Book element has no `title` attribute: the AttributeError
aborts the loop and is caught by the outer handler (`none` here). -/
def searchLoop (s : LMS) (kw : List Char) : List Obj → Option (List Obj)
  | [] => some []
  | Obj.bookObj bref :: rest =>
      (searchLoop s kw rest).map (fun tail =>
        if matchesKeyword kw (s.bookHeap bref) then Obj.bookObj bref :: tail else tail)
  | _ :: _ => none

/-- `Library.search_books` (library.py lines 111-126): a blank keyword
(`not keyword.strip()`, i.e. every character is whitespace) raises
ValueError, caught internally, returning `[]`; an AttributeError in the
loop is likewise caught, returning `[]`; otherwise the accumulated matches
are returned in catalog order. -/
def Library.search_books (s : LMS) (keyword : String) : List Obj :=
  if keyword.toList.all Char.isWhitespace then []
  else
    match searchLoop s (lowerChars keyword) s.lib.books with
    | some found => found
    | none => []

/-- Modelled from the spec: `Library.get_book_borrow_details` is absent from
library.py (only test_library.py and test_datetime_tracking.py call it); per
the spec it is a thin pass-through to the Item accessor
`Book.get_borrow_details`. -/
def Library.get_book_borrow_details (s : LMS) (book : Obj) : Option BorrowDetails :=
  match book with
  | Obj.bookObj bref => (s.bookHeap bref).get_borrow_details s.memberHeap
  | _ => none

/-- Modelled from the spec: `Library.get_book_return_details` is absent from
library.py (only the tests call it); per the spec it is a thin pass-through
to `Book.get_return_details`. -/
def Library.get_book_return_details (s : LMS) (book : Obj) : Option ReturnDetails :=
  match book with
  | Obj.bookObj bref => (s.bookHeap bref).get_return_details s.memberHeap
  | _ => none

/-- The combined history record returned by `Library.get_book_history`
(keys `book_id`, `title`, `is_available`, `borrow_details`,
`return_details`, as asserted by test_library.py lines 579-583). -/
structure BookHistory where
  book_id : Int
  title : String
  is_available : Bool
  borrow_details : Option BorrowDetails
  return_details : Option ReturnDetails
deriving DecidableEq, Repr

/-- Modelled from the spec: `Library.get_book_history` is absent from
library.py (only the tests call it); per the spec it assembles the combined
record of id, title, availability, borrow details and return details. -/
def Library.get_book_history (s : LMS) (book : Obj) : Option BookHistory :=
  match book with
  | Obj.bookObj bref =>
      some ⟨(s.bookHeap bref).book_id, (s.bookHeap bref).title,
            (s.bookHeap bref).is_available,
            (s.bookHeap bref).get_borrow_details s.memberHeap,
            (s.bookHeap bref).get_return_details s.memberHeap⟩
  | _ => none

/-- A Book as `Book.__init__` leaves it: available, no provenance. -/
def FreshBook (b : Book) : Prop :=
  b.is_available = true ∧ b.borrowed_at = none ∧ b.borrowed_by = none ∧
  b.returned_at = none ∧ b.returned_by = none

/-- A freshly constructed world: a `Library()` with empty collections, every
Book on the heap freshly constructed, every Member with an empty
`borrowed_books` list. -/
def FreshLMS (s : LMS) : Prop :=
  (∀ r, FreshBook (s.bookHeap r)) ∧
  (∀ r, (s.memberHeap r).borrowed_books = []) ∧
  s.lib = ⟨[], []⟩

/-- States reachable from a fresh world by the public operations of the
coordinator (issue, return, add/remove of books and members, bulk adds) and
the member-level borrow/return they delegate to. -/
inductive Reachable : LMS → Prop where
  | init (s : LMS) (h : FreshLMS s) : Reachable s
  | issue_book (s : LMS) (h : Reachable s) (book member : Obj) :
      Reachable (Library.issue_book s book member)
  | return_book (s : LMS) (h : Reachable s) (book member : Obj) :
      Reachable (Library.return_book s book member)
  | borrow_book (s : LMS) (h : Reachable s) (mref : Nat) (book : Obj) :
      Reachable (Member.borrow_book s mref book)
  | member_return (s : LMS) (h : Reachable s) (mref : Nat) (book : Obj) :
      Reachable (Member.return_book s mref book)
  | add_book (s : LMS) (h : Reachable s) (o : Obj) :
      Reachable { s with lib := s.lib.add_book o }
  | add_books (s : LMS) (h : Reachable s) (os : List Obj) :
      Reachable { s with lib := s.lib.add_books os }
  | remove_book (s : LMS) (h : Reachable s) (o : Obj) :
      Reachable { s with lib := s.lib.remove_book o }
  | add_member (s : LMS) (h : Reachable s) (o : Obj) :
      Reachable { s with lib := s.lib.add_member o }
  | add_members (s : LMS) (h : Reachable s) (os : List Obj) :
      Reachable { s with lib := s.lib.add_members os }
  | remove_member (s : LMS) (h : Reachable s) (o : Obj) :
      Reachable { s with lib := s.lib.remove_member o }

/-- Heap-level availability invariant: an available book is held by nobody;
an unavailable book is held by exactly one member, with multiplicity one. -/
def InvH (B : Nat → Book) (M : Nat → Member) : Prop :=
  ∀ bref : Nat,
    ((B bref).is_available = true → ∀ mref, bref ∉ (M mref).borrowed_books) ∧
    ((B bref).is_available = false →
      ∃ mref, (M mref).borrowed_books.count bref = 1 ∧
        ∀ m2, m2 ≠ mref → bref ∉ (M m2).borrowed_books)

/-- The availability invariant of a whole state. -/
def AvailInv (s : LMS) : Prop := InvH s.bookHeap s.memberHeap

/-- Capacity invariant: no member's held list exceeds `MAX_BORROW_LIMIT`. -/
def CapInv (s : LMS) : Prop :=
  ∀ mref, (s.memberHeap mref).borrowed_books.length ≤ Member.MAX_BORROW_LIMIT

/-- A demonstration book value, as constructed by
`Book(1, "The Great Gatsby", "F. Scott Fitzgerald", "Fiction")`. -/
def gatsbyBook : Book :=
  Book.fresh 1 "The Great Gatsby" "F. Scott Fitzgerald" "Fiction"

/-- A demonstration member value, as constructed by
`Member(1, "Alice", 30, "alice@example.com")`. -/
def aliceMember : Member :=
  ⟨1, "Alice", 30, "alice@example.com", []⟩

/-- A freshly created world: `Library()` with empty collections, every book
object freshly constructed, every member object with an empty held list. -/
def freshState : LMS :=
  ⟨fun _ => gatsbyBook, fun _ => aliceMember, ⟨[], []⟩, 0⟩

/-- `freshState` after `add_book` of book object 0. -/
def bookAddedState : LMS :=
  { freshState with lib := freshState.lib.add_book (Obj.bookObj 0) }

/-- `bookAddedState` after `add_book` of book object 1. -/
def twoBooksState : LMS :=
  { bookAddedState with lib := bookAddedState.lib.add_book (Obj.bookObj 1) }

/-- `twoBooksState` after issuing book 0 to member 0. -/
def oneIssuedState : LMS :=
  Library.issue_book twoBooksState (Obj.bookObj 0) (Obj.memberObj 0)

/-- `oneIssuedState` after issuing book 1 to member 0: member 0 is at the
borrow limit. -/
def capState : LMS :=
  Library.issue_book oneIssuedState (Obj.bookObj 1) (Obj.memberObj 0)

/-- An unavailable demonstration book. -/
def unavailBook : Book :=
  { gatsbyBook with is_available := false }

/-- The empty library, as built by `Library()`. -/
def emptyLib : Library := ⟨[], []⟩

/-- Evaluating a heap update at the updated reference. -/
theorem updateFn_same {α : Type} (f : Nat → α) (r : Nat) (v : α) :
    updateFn f r v r = v := by
  simp [updateFn]

/-- Evaluating a heap update away from the updated reference. -/
theorem updateFn_other {α : Type} (f : Nat → α) (r : Nat) (v : α) (x : Nat)
    (h : x ≠ r) : updateFn f r v x = f x := by
  simp [updateFn, h]

/-- The book returned by `Book.borrow` is never available: either the branch
taken sets the flag to False, or the book was already unavailable and is
returned unchanged. -/
theorem borrow_fst_not_available (b : Book) (m : Option Nat) (t : Nat) :
    ((b.borrow m t).1).is_available = false := by
  unfold Book.borrow
  cases h : b.is_available <;> simp [h]

/-- Shape of a successful `Member.borrow_book`: under the limit and with the
book available, the member's list gains the book at the end and the book is
marked borrowed with provenance. -/
theorem borrow_book_success (s : LMS) (mref bref : Nat)
    (hlen : (s.memberHeap mref).borrowed_books.length < Member.MAX_BORROW_LIMIT)
    (hav : (s.bookHeap bref).is_available = true) :
    Member.borrow_book s mref (Obj.bookObj bref) =
      { s with
        memberHeap := updateFn s.memberHeap mref
          { s.memberHeap mref with
            borrowed_books := (s.memberHeap mref).borrowed_books ++ [bref] },
        bookHeap := updateFn s.bookHeap bref
          { s.bookHeap bref with
            is_available := false,
            borrowed_at := some s.clock,
            borrowed_by := some mref },
        clock := s.clock + 1 } := by
  unfold Member.borrow_book Book.is_available_to_borrow Book.borrow
  simp [hlen, hav]

/-- `Member.borrow_book` on an unavailable book changes nothing. -/
theorem borrow_book_not_available (s : LMS) (mref bref : Nat)
    (hav : (s.bookHeap bref).is_available = false) :
    Member.borrow_book s mref (Obj.bookObj bref) = s := by
  unfold Member.borrow_book Book.is_available_to_borrow
  simp [hav]

/-- `Member.borrow_book` at the borrow limit changes nothing. -/
theorem borrow_book_at_limit (s : LMS) (mref : Nat) (book : Obj)
    (hlen : ¬ (s.memberHeap mref).borrowed_books.length < Member.MAX_BORROW_LIMIT) :
    Member.borrow_book s mref book = s := by
  unfold Member.borrow_book
  cases book <;> simp [hlen]

/-- Shape of a successful `Member.return_book`: the held book is removed
from the member's list and marked available with return provenance. -/
theorem member_return_success (s : LMS) (mref bref : Nat)
    (hmem : bref ∈ (s.memberHeap mref).borrowed_books) :
    Member.return_book s mref (Obj.bookObj bref) =
      { s with
        memberHeap := updateFn s.memberHeap mref
          { s.memberHeap mref with
            borrowed_books := (s.memberHeap mref).borrowed_books.erase bref },
        bookHeap := updateFn s.bookHeap bref
          { s.bookHeap bref with
            is_available := true,
            returned_at := some s.clock,
            returned_by := some mref },
        clock := s.clock + 1 } := by
  unfold Member.return_book Book.return_book
  simp [hmem]

/-- `Member.return_book` on a book the member does not hold changes
nothing. -/
theorem member_return_not_held (s : LMS) (mref bref : Nat)
    (hmem : bref ∉ (s.memberHeap mref).borrowed_books) :
    Member.return_book s mref (Obj.bookObj bref) = s := by
  unfold Member.return_book
  simp [hmem]

/-- The invariant is preserved by a successful borrow update: the borrowed
book becomes unavailable and is appended to the borrowing member's list. -/
theorem InvH.borrow (B : Nat → Book) (M : Nat → Member) (bref mref : Nat)
    (bNew : Book) (mNew : Member) (hInv : InvH B M)
    (hav : (B bref).is_available = true)
    (hbNew : bNew.is_available = false)
    (hmNew : mNew.borrowed_books = (M mref).borrowed_books ++ [bref]) :
    InvH (updateFn B bref bNew) (updateFn M mref mNew) := by
  have hnot := (hInv bref).1 hav
  intro x
  by_cases hbx : x = bref
  · constructor
    · intro hx m
      rw [hbx, updateFn_same, hbNew] at hx
      cases hx
    · intro hx
      refine ⟨mref, ?_, ?_⟩
      · rw [updateFn_same, hmNew, hbx, List.count_append]
        have h0 : (M mref).borrowed_books.count bref = 0 :=
          List.count_eq_zero.mpr (hnot mref)
        simp [h0]
      · intro m hm
        rw [updateFn_other _ _ _ _ hm, hbx]
        exact hnot m
  · have hxB : updateFn B bref bNew x = B x := updateFn_other _ _ _ _ hbx
    constructor
    · intro hx m
      rw [hxB] at hx
      have h3 := (hInv x).1 hx
      by_cases hm : m = mref
      · rw [hm, updateFn_same, hmNew]
        intro hcontra
        rcases List.mem_append.mp hcontra with h | h
        · exact h3 mref h
        · rw [List.mem_singleton] at h
          exact hbx h
      · rw [updateFn_other _ _ _ _ hm]
        exact h3 m
    · intro hx
      rw [hxB] at hx
      obtain ⟨m0, hc, hothers⟩ := (hInv x).2 hx
      refine ⟨m0, ?_, ?_⟩
      · by_cases hm : m0 = mref
        · rw [hm] at hc
          rw [hm, updateFn_same, hmNew, List.count_append]
          have h0 : List.count x [bref] = 0 :=
            List.count_eq_zero.mpr (by simp [hbx])
          omega
        · rw [updateFn_other _ _ _ _ hm]
          exact hc
      · intro m hm
        by_cases hmm : m = mref
        · rw [hmm, updateFn_same, hmNew]
          intro hcontra
          rcases List.mem_append.mp hcontra with h | h
          · exact hothers m hm (by rw [hmm]; exact h)
          · rw [List.mem_singleton] at h
            exact hbx h
        · rw [updateFn_other _ _ _ _ hmm]
          exact hothers m hm

/-- The invariant is preserved by a return update: a book held by `mref` is
erased from its list and made available.  The invariant forces `mref` to be
the unique holder, so afterwards nobody holds the book. -/
theorem InvH.return_upd (B : Nat → Book) (M : Nat → Member) (bref mref : Nat)
    (bNew : Book) (mNew : Member) (hInv : InvH B M)
    (hmem : bref ∈ (M mref).borrowed_books)
    (hbNew : bNew.is_available = true)
    (hmNew : mNew.borrowed_books = (M mref).borrowed_books.erase bref) :
    InvH (updateFn B bref bNew) (updateFn M mref mNew) := by
  have hunav : (B bref).is_available = false := by
    cases h : (B bref).is_available
    · rfl
    · exact absurd hmem ((hInv bref).1 h mref)
  obtain ⟨m0, hc, hothers⟩ := (hInv bref).2 hunav
  have hm0 : m0 = mref := by
    by_contra hne
    exact hothers mref (fun h => hne h.symm) hmem
  rw [hm0] at hc hothers
  intro x
  by_cases hbx : x = bref
  · constructor
    · intro _ m
      by_cases hm : m = mref
      · rw [hm, updateFn_same, hmNew, hbx]
        intro hcontra
        have h1 := List.count_erase_self bref (M mref).borrowed_books
        have h2 := List.count_pos_iff.mpr hcontra
        omega
      · rw [updateFn_other _ _ _ _ hm, hbx]
        exact hothers m hm
    · intro hx
      rw [hbx, updateFn_same, hbNew] at hx
      cases hx
  · have hxB : updateFn B bref bNew x = B x := updateFn_other _ _ _ _ hbx
    constructor
    · intro hx m
      rw [hxB] at hx
      have h3 := (hInv x).1 hx
      by_cases hm : m = mref
      · rw [hm, updateFn_same, hmNew]
        intro hcontra
        exact h3 mref (List.mem_of_mem_erase hcontra)
      · rw [updateFn_other _ _ _ _ hm]
        exact h3 m
    · intro hx
      rw [hxB] at hx
      obtain ⟨m1, hc1, hothers1⟩ := (hInv x).2 hx
      refine ⟨m1, ?_, ?_⟩
      · by_cases hm : m1 = mref
        · rw [hm] at hc1
          rw [hm, updateFn_same, hmNew, List.count_erase_of_ne hbx]
          exact hc1
        · rw [updateFn_other _ _ _ _ hm]
          exact hc1
      · intro m hm
        by_cases hmm : m = mref
        · rw [hmm, updateFn_same, hmNew]
          intro hcontra
          exact hothers1 m hm (by rw [hmm]; exact List.mem_of_mem_erase hcontra)
        · rw [updateFn_other _ _ _ _ hmm]
          exact hothers1 m hm

/-- Fresh states satisfy the availability invariant. -/
theorem availInv_of_fresh (s : LMS) (h : FreshLMS s) : AvailInv s := by
  obtain ⟨hb, hm, _⟩ := h
  intro bref
  constructor
  · intro _ mref
    rw [hm mref]
    exact List.not_mem_nil bref
  · intro hx
    rw [(hb bref).1] at hx
    cases hx

/-- `Member.borrow_book` preserves the availability invariant. -/
theorem availInv_borrow_book (s : LMS) (mref : Nat) (book : Obj)
    (hInv : AvailInv s) : AvailInv (Member.borrow_book s mref book) := by
  cases book with
  | memberObj r => exact hInv
  | junk n => exact hInv
  | bookObj bref =>
    by_cases hlen : (s.memberHeap mref).borrowed_books.length < Member.MAX_BORROW_LIMIT
    · by_cases hav : (s.bookHeap bref).is_available = true
      · rw [borrow_book_success s mref bref hlen hav]
        exact InvH.borrow s.bookHeap s.memberHeap bref mref _ _ hInv hav rfl rfl
      · rw [borrow_book_not_available s mref bref (Bool.eq_false_iff.mpr hav)]
        exact hInv
    · rw [borrow_book_at_limit s mref _ hlen]
      exact hInv

/-- `Member.return_book` preserves the availability invariant. -/
theorem availInv_member_return (s : LMS) (mref : Nat) (book : Obj)
    (hInv : AvailInv s) : AvailInv (Member.return_book s mref book) := by
  cases book with
  | memberObj r => exact hInv
  | junk n => exact hInv
  | bookObj bref =>
    by_cases hmem : bref ∈ (s.memberHeap mref).borrowed_books
    · rw [member_return_success s mref bref hmem]
      exact InvH.return_upd s.bookHeap s.memberHeap bref mref _ _ hInv hmem rfl rfl
    · rw [member_return_not_held s mref bref hmem]
      exact hInv

/-- When its guard holds, `Library.issue_book` delegates to
`Member.borrow_book`. -/
theorem issue_book_delegates (s : LMS) (bref mref : Nat)
    (hmem : Obj.bookObj bref ∈ s.lib.books)
    (hav : (s.bookHeap bref).is_available = true) :
    Library.issue_book s (Obj.bookObj bref) (Obj.memberObj mref) =
      Member.borrow_book s mref (Obj.bookObj bref) := by
  show (if Obj.bookObj bref ∈ s.lib.books ∧ (s.bookHeap bref).is_available = true then
      Member.borrow_book s mref (Obj.bookObj bref) else s) =
    Member.borrow_book s mref (Obj.bookObj bref)
  rw [if_pos ⟨hmem, hav⟩]

/-- When its guard fails, `Library.issue_book` only logs. -/
theorem issue_book_guard_fails (s : LMS) (bref mref : Nat)
    (h : ¬(Obj.bookObj bref ∈ s.lib.books ∧ (s.bookHeap bref).is_available = true)) :
    Library.issue_book s (Obj.bookObj bref) (Obj.memberObj mref) = s := by
  show (if Obj.bookObj bref ∈ s.lib.books ∧ (s.bookHeap bref).is_available = true then
      Member.borrow_book s mref (Obj.bookObj bref) else s) = s
  rw [if_neg h]

/-- When the member holds the book, `Library.return_book` delegates to
`Member.return_book`. -/
theorem return_book_delegates (s : LMS) (bref mref : Nat)
    (hmem : bref ∈ (s.memberHeap mref).borrowed_books) :
    Library.return_book s (Obj.bookObj bref) (Obj.memberObj mref) =
      Member.return_book s mref (Obj.bookObj bref) := by
  show (if bref ∈ (s.memberHeap mref).borrowed_books then
      Member.return_book s mref (Obj.bookObj bref) else s) =
    Member.return_book s mref (Obj.bookObj bref)
  rw [if_pos hmem]

/-- `Library.issue_book` preserves the availability invariant. -/
theorem availInv_issue_book (s : LMS) (book member : Obj)
    (hInv : AvailInv s) : AvailInv (Library.issue_book s book member) := by
  cases book with
  | bookObj bref =>
    cases member with
    | memberObj mref =>
      by_cases hcond : Obj.bookObj bref ∈ s.lib.books ∧ (s.bookHeap bref).is_available = true
      · rw [issue_book_delegates s bref mref hcond.1 hcond.2]
        exact availInv_borrow_book s mref (Obj.bookObj bref) hInv
      · rw [issue_book_guard_fails s bref mref hcond]
        exact hInv
    | bookObj r => exact hInv
    | junk n => exact hInv
  | memberObj r => cases member <;> exact hInv
  | junk n => cases member <;> exact hInv

/-- `Library.return_book` preserves the availability invariant. -/
theorem availInv_return_book (s : LMS) (book member : Obj)
    (hInv : AvailInv s) : AvailInv (Library.return_book s book member) := by
  cases member with
  | memberObj mref =>
    cases book with
    | bookObj bref =>
      by_cases hmem : bref ∈ (s.memberHeap mref).borrowed_books
      · rw [return_book_delegates s bref mref hmem]
        exact availInv_member_return s mref (Obj.bookObj bref) hInv
      · have hnoop : Library.return_book s (Obj.bookObj bref) (Obj.memberObj mref) = s := by
          show (if bref ∈ (s.memberHeap mref).borrowed_books then
              Member.return_book s mref (Obj.bookObj bref) else s) = s
          rw [if_neg hmem]
        rw [hnoop]
        exact hInv
    | memberObj r => exact hInv
    | junk n => exact hInv
  | bookObj r => exact hInv
  | junk n => exact hInv

/-- Every reachable state satisfies the availability invariant. -/
theorem availInv_reachable (s : LMS) (h : Reachable s) : AvailInv s := by
  induction h with
  | init s h => exact availInv_of_fresh s h
  | issue_book s h book member ih => exact availInv_issue_book s book member ih
  | return_book s h book member ih => exact availInv_return_book s book member ih
  | borrow_book s h mref book ih => exact availInv_borrow_book s mref book ih
  | member_return s h mref book ih => exact availInv_member_return s mref book ih
  | add_book s h o ih => exact ih
  | add_books s h os ih => exact ih
  | remove_book s h o ih => exact ih
  | add_member s h o ih => exact ih
  | add_members s h os ih => exact ih
  | remove_member s h o ih => exact ih

/-- `Member.borrow_book` preserves the capacity invariant: it appends only
behind a strict-inequality guard. -/
theorem capInv_borrow_book (s : LMS) (mref : Nat) (book : Obj)
    (hCap : CapInv s) : CapInv (Member.borrow_book s mref book) := by
  cases book with
  | memberObj r => exact hCap
  | junk n => exact hCap
  | bookObj bref =>
    by_cases hlen : (s.memberHeap mref).borrowed_books.length < Member.MAX_BORROW_LIMIT
    · by_cases hav : (s.bookHeap bref).is_available = true
      · rw [borrow_book_success s mref bref hlen hav]
        intro m
        dsimp only
        by_cases hm : m = mref
        · rw [hm, updateFn_same]
          simp only [List.length_append, List.length_singleton]
          omega
        · rw [updateFn_other _ _ _ _ hm]
          exact hCap m
      · rw [borrow_book_not_available s mref bref (Bool.eq_false_iff.mpr hav)]
        exact hCap
    · rw [borrow_book_at_limit s mref _ hlen]
      exact hCap

/-- `Member.return_book` preserves the capacity invariant: erasing never
lengthens a list. -/
theorem capInv_member_return (s : LMS) (mref : Nat) (book : Obj)
    (hCap : CapInv s) : CapInv (Member.return_book s mref book) := by
  cases book with
  | memberObj r => exact hCap
  | junk n => exact hCap
  | bookObj bref =>
    by_cases hmem : bref ∈ (s.memberHeap mref).borrowed_books
    · rw [member_return_success s mref bref hmem]
      intro m
      dsimp only
      by_cases hm : m = mref
      · rw [hm, updateFn_same]
        exact le_trans (List.erase_sublist bref _).length_le (hCap mref)
      · rw [updateFn_other _ _ _ _ hm]
        exact hCap m
    · rw [member_return_not_held s mref bref hmem]
      exact hCap

/-- `Library.issue_book` preserves the capacity invariant. -/
theorem capInv_issue_book (s : LMS) (book member : Obj)
    (hCap : CapInv s) : CapInv (Library.issue_book s book member) := by
  cases book with
  | bookObj bref =>
    cases member with
    | memberObj mref =>
      by_cases hcond : Obj.bookObj bref ∈ s.lib.books ∧ (s.bookHeap bref).is_available = true
      · rw [issue_book_delegates s bref mref hcond.1 hcond.2]
        exact capInv_borrow_book s mref (Obj.bookObj bref) hCap
      · rw [issue_book_guard_fails s bref mref hcond]
        exact hCap
    | bookObj r => exact hCap
    | junk n => exact hCap
  | memberObj r => cases member <;> exact hCap
  | junk n => cases member <;> exact hCap

/-- `Library.return_book` preserves the capacity invariant. -/
theorem capInv_return_book (s : LMS) (book member : Obj)
    (hCap : CapInv s) : CapInv (Library.return_book s book member) := by
  cases member with
  | memberObj mref =>
    cases book with
    | bookObj bref =>
      by_cases hmem : bref ∈ (s.memberHeap mref).borrowed_books
      · rw [return_book_delegates s bref mref hmem]
        exact capInv_member_return s mref (Obj.bookObj bref) hCap
      · have hnoop : Library.return_book s (Obj.bookObj bref) (Obj.memberObj mref) = s := by
          show (if bref ∈ (s.memberHeap mref).borrowed_books then
              Member.return_book s mref (Obj.bookObj bref) else s) = s
          rw [if_neg hmem]
        rw [hnoop]
        exact hCap
    | memberObj r => exact hCap
    | junk n => exact hCap
  | bookObj r => exact hCap
  | junk n => exact hCap

/-- Every reachable state satisfies the capacity invariant. -/
theorem capInv_reachable (s : LMS) (h : Reachable s) : CapInv s := by
  induction h with
  | init s h =>
    intro mref
    rw [h.2.1 mref]
    simp [Member.MAX_BORROW_LIMIT]
  | issue_book s h book member ih => exact capInv_issue_book s book member ih
  | return_book s h book member ih => exact capInv_return_book s book member ih
  | borrow_book s h mref book ih => exact capInv_borrow_book s mref book ih
  | member_return s h mref book ih => exact capInv_member_return s mref book ih
  | add_book s h o ih => exact ih
  | add_books s h os ih => exact ih
  | remove_book s h o ih => exact ih
  | add_member s h o ih => exact ih
  | add_members s h os ih => exact ih
  | remove_member s h o ih => exact ih

/-- The fresh demonstration world is fresh. -/
theorem freshState_fresh : FreshLMS freshState :=
  ⟨fun _ => ⟨rfl, rfl, rfl, rfl, rfl⟩, fun _ => rfl, rfl⟩

/-- The demonstration capacity state is reachable. -/
theorem capState_reachable : Reachable capState :=
  Reachable.issue_book oneIssuedState
    (Reachable.issue_book twoBooksState
      (Reachable.add_book bookAddedState
        (Reachable.add_book freshState
          (Reachable.init freshState freshState_fresh) (Obj.bookObj 0))
        (Obj.bookObj 1))
      (Obj.bookObj 0) (Obj.memberObj 0))
    (Obj.bookObj 1) (Obj.memberObj 0)

/-- C1: starting from a freshly created Library, Books and Members, after
any sequence of coordinator operations (issue_book, return_book, add/remove
of books and members, including the member-level borrow/return they
delegate to), every book's `is_available` flag is true iff no member's
`borrowed_books` list contains that book. -/
theorem availability_consistency (s : LMS) (h : Reachable s) (bref : Nat) :
    (s.bookHeap bref).is_available = true ↔
      ∀ mref, bref ∉ (s.memberHeap mref).borrowed_books := by
  have hInv := availInv_reachable s h
  constructor
  · exact (hInv bref).1
  · intro hall
    by_contra hne
    have hfalse : (s.bookHeap bref).is_available = false := Bool.eq_false_iff.mpr hne
    obtain ⟨m0, hc, _⟩ := (hInv bref).2 hfalse
    exact hall m0 (List.count_pos_iff.mp (by omega))

/-- Witness for C1 at the fresh demonstration world and book 0. -/
theorem availability_consistency_witness :
    (freshState.bookHeap 0).is_available = true ↔
      ∀ mref, 0 ∉ (freshState.memberHeap mref).borrowed_books :=
  availability_consistency freshState
    (Reachable.init freshState ⟨fun _ => ⟨rfl, rfl, rfl, rfl, rfl⟩, fun _ => rfl, rfl⟩) 0

/-- C2: in every reachable state no member's `borrowed_books` list exceeds
`MAX_BORROW_LIMIT = 2`, and a `borrow_book` or `issue_book` attempted while
the member already holds 2 books leaves the whole state (in particular the
held list's size and the target book) unchanged. -/
theorem capacity_never_exceeded (s : LMS) (h : Reachable s) :
    Member.MAX_BORROW_LIMIT = 2 ∧
    (∀ mref, (s.memberHeap mref).borrowed_books.length ≤ Member.MAX_BORROW_LIMIT) ∧
    (∀ mref book, (s.memberHeap mref).borrowed_books.length = Member.MAX_BORROW_LIMIT →
      Member.borrow_book s mref book = s ∧
      Library.issue_book s book (Obj.memberObj mref) = s) := by
  refine ⟨rfl, capInv_reachable s h, ?_⟩
  intro mref book hfull
  have hb : Member.borrow_book s mref book = s :=
    borrow_book_at_limit s mref book (by omega)
  refine ⟨hb, ?_⟩
  cases book with
  | bookObj bref =>
    by_cases hcond : Obj.bookObj bref ∈ s.lib.books ∧ (s.bookHeap bref).is_available = true
    · rw [issue_book_delegates s bref mref hcond.1 hcond.2]
      exact hb
    · exact issue_book_guard_fails s bref mref hcond
  | memberObj r => rfl
  | junk n => rfl

/-- Witness for C2 at a reachable state where member 0 holds two books:
issuing a third book changes nothing. -/
theorem capacity_never_exceeded_witness :
    (capState.memberHeap 0).borrowed_books.length = 2 ∧
    Library.issue_book capState (Obj.bookObj 2) (Obj.memberObj 0) = capState := by
  have h := capacity_never_exceeded capState capState_reachable
  exact ⟨by decide, (h.2.2 0 (Obj.bookObj 2) (by decide)).2⟩

/-- `Book.borrow` on an unavailable book returns the book unchanged paired
with False. -/
theorem borrow_of_not_available (b : Book) (mem : Option Nat) (t : Nat)
    (h : b.is_available = false) : b.borrow mem t = (b, false) := by
  unfold Book.borrow
  rw [h]
  simp

/-- C4: borrowing an unavailable book is a total no-op failure: it returns
False and leaves every field of the book unchanged; consequently the second
of two consecutive borrows (no return in between) is always a no-op
failure, leaving the state after the second call equal to the state after
the first. -/
theorem borrow_unavailable_failure (b : Book) (mem mem2 : Option Nat) (t t2 : Nat) :
    (b.is_available = false → b.borrow mem t = (b, false)) ∧
    (b.borrow mem t).1.borrow mem2 t2 = ((b.borrow mem t).1, false) :=
  ⟨fun h => borrow_of_not_available b mem t h,
   borrow_of_not_available _ mem2 t2 (borrow_fst_not_available b mem t)⟩

/-- Witness for C4 at a concrete unavailable book. -/
theorem borrow_unavailable_failure_witness :
    unavailBook.is_available = false ∧
    unavailBook.borrow (some 0) 5 = (unavailBook, false) :=
  ⟨rfl, (borrow_unavailable_failure unavailBook (some 0) none 5 6).1 rfl⟩

/-- C7: returning a book the member never held is a no-op: the whole state
(in particular the member's `borrowed_books` list and the book's entire
state) is unchanged, and no exception escapes. -/
theorem return_unheld_noop (s : LMS) (bref mref : Nat)
    (h : bref ∉ (s.memberHeap mref).borrowed_books) :
    Library.return_book s (Obj.bookObj bref) (Obj.memberObj mref) = s := by
  show (if bref ∈ (s.memberHeap mref).borrowed_books then
      Member.return_book s mref (Obj.bookObj bref) else s) = s
  rw [if_neg h]

/-- Witness for C7: member 0 of the fresh world holds nothing, so returning
book 0 changes nothing. -/
theorem return_unheld_noop_witness :
    Library.return_book freshState (Obj.bookObj 0) (Obj.memberObj 0) = freshState :=
  return_unheld_noop freshState 0 0 (by decide)

/-- C8: the catalog's single-object add operations validate the identity
attribute: an object without it is logged and dropped (collection
unchanged), an object with it is appended. -/
theorem add_defensive (lib : Library) (o : Obj) :
    (o.hasBookId = false → lib.add_book o = lib) ∧
    (o.hasBookId = true → lib.add_book o = { lib with books := lib.books ++ [o] }) ∧
    (o.hasMemberId = false → lib.add_member o = lib) ∧
    (o.hasMemberId = true → lib.add_member o = { lib with members := lib.members ++ [o] }) := by
  refine ⟨?_, ?_, ?_, ?_⟩
  · intro h
    simp [Library.add_book, h]
  · intro h
    simp [Library.add_book, h]
  · intro h
    simp [Library.add_member, h]
  · intro h
    simp [Library.add_member, h]

/-- Witness for C8: a junk object is dropped by both adds; a Book object is
appended by `add_book`, a Member object by `add_member`. -/
theorem add_defensive_witness :
    emptyLib.add_book (Obj.junk 7) = emptyLib ∧
    emptyLib.add_book (Obj.bookObj 0) = { emptyLib with books := emptyLib.books ++ [Obj.bookObj 0] } ∧
    emptyLib.add_member (Obj.junk 7) = emptyLib ∧
    emptyLib.add_member (Obj.memberObj 0) = { emptyLib with members := emptyLib.members ++ [Obj.memberObj 0] } :=
  ⟨(add_defensive emptyLib (Obj.junk 7)).1 rfl,
   (add_defensive emptyLib (Obj.bookObj 0)).2.1 rfl,
   (add_defensive emptyLib (Obj.junk 7)).2.2.1 rfl,
   (add_defensive emptyLib (Obj.memberObj 0)).2.2.2 rfl⟩

/-- C10: the bulk variants `add_books`/`add_members` perform no validation:
every argument object, well-formed or not, is appended in order. -/
theorem bulk_add_no_validation (lib : Library) (objs : List Obj) :
    lib.add_books objs = { lib with books := lib.books ++ objs } ∧
    lib.add_members objs = { lib with members := lib.members ++ objs } :=
  ⟨rfl, rfl⟩

/-- C9: `Library.issue_book` never consults `self.members`: for any member
object — registered in `s.lib.members` or not — issuing an available book
from the collection to a member below capacity performs exactly the
borrow mutation (list appended, book marked borrowed with provenance). -/
theorem issue_book_ignores_registration (s : LMS) (bref mref : Nat)
    (hmem : Obj.bookObj bref ∈ s.lib.books)
    (hav : (s.bookHeap bref).is_available = true)
    (hcap : (s.memberHeap mref).borrowed_books.length < Member.MAX_BORROW_LIMIT) :
    Library.issue_book s (Obj.bookObj bref) (Obj.memberObj mref) =
      { s with
        memberHeap := updateFn s.memberHeap mref
          { s.memberHeap mref with
            borrowed_books := (s.memberHeap mref).borrowed_books ++ [bref] },
        bookHeap := updateFn s.bookHeap bref
          { s.bookHeap bref with
            is_available := false,
            borrowed_at := some s.clock,
            borrowed_by := some mref },
        clock := s.clock + 1 } := by
  rw [issue_book_delegates s bref mref hmem hav]
  exact borrow_book_success s mref bref hcap hav

/-- Witness for C9: member 3 is not registered in the demonstration world,
yet issuing book 0 to them performs the full borrow mutation. -/
theorem issue_book_ignores_registration_witness :
    Obj.memberObj 3 ∉ bookAddedState.lib.members ∧
    Library.issue_book bookAddedState (Obj.bookObj 0) (Obj.memberObj 3) =
      { bookAddedState with
        memberHeap := updateFn bookAddedState.memberHeap 3
          { bookAddedState.memberHeap 3 with
            borrowed_books := (bookAddedState.memberHeap 3).borrowed_books ++ [0] },
        bookHeap := updateFn bookAddedState.bookHeap 0
          { bookAddedState.bookHeap 0 with
            is_available := false,
            borrowed_at := some bookAddedState.clock,
            borrowed_by := some 3 },
        clock := bookAddedState.clock + 1 } :=
  ⟨by decide,
   issue_book_ignores_registration bookAddedState 0 3 (by decide) (by decide) (by decide)⟩

/-- C3: for a book in the collection and available and a member below
capacity, `issue_book` then `return_book` restores availability, leaves the
book absent from the member's held list, and records the same member as
return provenance. -/
theorem issue_return_round_trip (s : LMS) (bref mref : Nat) (h : Reachable s)
    (hmem : Obj.bookObj bref ∈ s.lib.books)
    (hav : (s.bookHeap bref).is_available = true)
    (hcap : (s.memberHeap mref).borrowed_books.length < Member.MAX_BORROW_LIMIT) :
    ((Library.return_book (Library.issue_book s (Obj.bookObj bref) (Obj.memberObj mref))
        (Obj.bookObj bref) (Obj.memberObj mref)).bookHeap bref).is_available = true ∧
    bref ∉ ((Library.return_book (Library.issue_book s (Obj.bookObj bref) (Obj.memberObj mref))
        (Obj.bookObj bref) (Obj.memberObj mref)).memberHeap mref).borrowed_books ∧
    ((Library.return_book (Library.issue_book s (Obj.bookObj bref) (Obj.memberObj mref))
        (Obj.bookObj bref) (Obj.memberObj mref)).bookHeap bref).returned_by = some mref := by
  have hInv := availInv_reachable s h
  have hnot : bref ∉ (s.memberHeap mref).borrowed_books := (hInv bref).1 hav mref
  have hs1mem : bref ∈
      ((Member.borrow_book s mref (Obj.bookObj bref)).memberHeap mref).borrowed_books := by
    rw [borrow_book_success s mref bref hcap hav]
    dsimp only
    rw [updateFn_same]
    simp
  have hret := return_book_delegates (Member.borrow_book s mref (Obj.bookObj bref)) bref mref hs1mem
  have hfin := member_return_success (Member.borrow_book s mref (Obj.bookObj bref)) mref bref hs1mem
  rw [issue_book_delegates s bref mref hmem hav, hret, hfin]
  dsimp only
  simp only [updateFn_same]
  refine ⟨trivial, ?_, trivial⟩
  dsimp only
  rw [borrow_book_success s mref bref hcap hav]
  dsimp only
  rw [updateFn_same]
  dsimp only
  rw [List.erase_append_right _ hnot]
  simp [hnot]

/-- Witness for C3 at the demonstration world with book 0 added: issuing
then returning book 0 to/from member 0. -/
theorem issue_return_round_trip_witness :
    ((Library.return_book (Library.issue_book bookAddedState (Obj.bookObj 0) (Obj.memberObj 0))
        (Obj.bookObj 0) (Obj.memberObj 0)).bookHeap 0).is_available = true ∧
    0 ∉ ((Library.return_book (Library.issue_book bookAddedState (Obj.bookObj 0) (Obj.memberObj 0))
        (Obj.bookObj 0) (Obj.memberObj 0)).memberHeap 0).borrowed_books ∧
    ((Library.return_book (Library.issue_book bookAddedState (Obj.bookObj 0) (Obj.memberObj 0))
        (Obj.bookObj 0) (Obj.memberObj 0)).bookHeap 0).returned_by = some 0 :=
  issue_return_round_trip bookAddedState 0 0
    (Reachable.add_book freshState (Reachable.init freshState freshState_fresh) (Obj.bookObj 0))
    (by decide) (by decide) (by decide)

/-- C5: the catalog's audit accessors are thin pass-throughs to the book's
accessors, and the history record combines id, title, availability, borrow
details and return details. -/
theorem history_pass_through (s : LMS) (bref : Nat) :
    Library.get_book_borrow_details s (Obj.bookObj bref) =
      (s.bookHeap bref).get_borrow_details s.memberHeap ∧
    Library.get_book_return_details s (Obj.bookObj bref) =
      (s.bookHeap bref).get_return_details s.memberHeap ∧
    Library.get_book_history s (Obj.bookObj bref) =
      some ⟨(s.bookHeap bref).book_id, (s.bookHeap bref).title,
            (s.bookHeap bref).is_available,
            (s.bookHeap bref).get_borrow_details s.memberHeap,
            (s.bookHeap bref).get_return_details s.memberHeap⟩ :=
  ⟨rfl, rfl, rfl⟩

/-- The search loop over a list of Book objects accumulates exactly the
keyword matches, in list order. -/
theorem searchLoop_all_books (s : LMS) (kw : List Char) (l : List Obj)
    (hbooks : ∀ o ∈ l, o.hasBookId = true) :
    searchLoop s kw l = some (l.filter (fun o =>
      match o with
      | Obj.bookObj bref => matchesKeyword kw (s.bookHeap bref)
      | _ => false)) := by
  induction l with
  | nil => rfl
  | cons o rest ih =>
    have ho := hbooks o (List.mem_cons_self o rest)
    have ihr := ih (fun o2 h2 => hbooks o2 (List.mem_cons_of_mem o h2))
    cases o with
    | bookObj bref =>
      unfold searchLoop
      rw [ihr, Option.map_some', List.filter_cons]
    | memberObj r => simp [Obj.hasBookId] at ho
    | junk n => simp [Obj.hasBookId] at ho

/-- C6: for a catalog whose collection holds Book objects, `search_books`
returns `[]` on a blank keyword (the ValidationError is recovered
internally, nothing is raised to the caller), and on a non-blank keyword
returns exactly the books whose title or author contains the keyword
case-insensitively, in catalog order. -/
theorem search_books_spec (s : LMS) (kw : String)
    (hbooks : ∀ o ∈ s.lib.books, o.hasBookId = true) :
    (kw.toList.all Char.isWhitespace = true → Library.search_books s kw = []) ∧
    (kw.toList.all Char.isWhitespace = false →
      Library.search_books s kw = s.lib.books.filter (fun o =>
        match o with
        | Obj.bookObj bref => matchesKeyword (lowerChars kw) (s.bookHeap bref)
        | _ => false)) := by
  constructor
  · intro h
    unfold Library.search_books
    rw [if_pos h]
  · intro h
    unfold Library.search_books
    rw [if_neg (by rw [h]; exact Bool.false_ne_true), searchLoop_all_books s (lowerChars kw) s.lib.books hbooks]

/-- Witness for C6: searching `"gatsby"` in the demonstration catalog
containing "The Great Gatsby" finds exactly that book. -/
theorem search_books_spec_witness :
    Library.search_books bookAddedState "gatsby" = [Obj.bookObj 0] := by
  have h := (search_books_spec bookAddedState "gatsby" (by decide)).2 (by decide)
  rw [h]
  decide
